import Mathlib

/-!
Verification development for the Natural Language Agreement (NLA) client and
arbitration oracle.  Strings are modelled as lists of natural numbers (byte /
code-unit values); the ABI codec, the provider router (`arbitrate`) and the
oracle polling callback are embedded as executable Lean functions that follow
the TypeScript source (`src/nla.ts`, `src/cli/server/oracle.ts`).
-/

namespace NLA

/-- Byte-string model of a JavaScript string: the list of its character codes
(code points; for ASCII text these coincide with UTF-8 bytes). -/
abbrev Str := List Nat

/-- Character codes of a Lean string literal, used to embed the concrete
string constants appearing in the source. -/
def strB (s : String) : Str := s.data.map Char.toNat

/-- ASCII lower-casing of one character code, the behaviour of
`String.prototype.toLowerCase` on the ASCII range used by the source. -/
def lowerByte (c : Nat) : Nat := if 65 ≤ c ∧ c ≤ 90 then c + 32 else c

/-- Model of `s.toLowerCase()`. -/
def lowerStr (s : Str) : Str := s.map lowerByte

/-- ASCII whitespace (space, tab, newline, carriage return, vertical tab,
form feed), the characters trimmed by `String.prototype.trim`. -/
def isWs (c : Nat) : Bool := c == 32 || c == 9 || c == 10 || c == 13 || c == 11 || c == 12

/-- Model of `s.trim()`: drop whitespace from both ends. -/
def trimStr (s : Str) : Str :=
  ((s.dropWhile isWs).reverse.dropWhile isWs).reverse

/-- `startsWith s p` is true when `p` is an initial segment of `s`
(JavaScript `s.startsWith(p)`). -/
def startsWith : Str → Str → Bool
  | _, [] => true
  | [], _ :: _ => false
  | c :: s, p :: ps => c == p && startsWith s ps

/-- `containsSub s sub` is JavaScript `s.includes(sub)`: `sub` occurs
contiguously inside `s`. -/
def containsSub : Str → Str → Bool
  | [], sub => sub.isEmpty
  | c :: rest, sub => startsWith (c :: rest) sub || containsSub rest sub

/-- One fuelled step list for global literal replacement; see `replaceAll`. -/
def replaceAllF : Nat → Str → Str → Str → Str
  | 0, s, _, _ => s
  | fuel + 1, s, pat, rep =>
    match s with
    | [] => []
    | c :: rest =>
      if startsWith (c :: rest) pat then
        rep ++ replaceAllF fuel ((c :: rest).drop pat.length) pat rep
      else
        c :: replaceAllF fuel rest pat rep

/-- Model of `s.replace(litRegex-with-g-flag, rep)` for a literal pattern:
left-to-right, non-overlapping, replacement text not rescanned. -/
def replaceAll (s pat rep : Str) : Str := replaceAllF s.length s pat rep

/-! ## Codec (`encodeDemand` / `decodeDemand`, src/nla.ts lines 98-111)

The source delegates to the `viem` functions `encodeAbiParameters` and `decodeAbiParameters`
for the ABI parameter list
`(string arbitrationProvider, string arbitrationModel, string arbitrationPrompt, string demand)`:
a single dynamic tuple of four dynamic strings.  We embed the standard
Solidity ABI layout those functions implement: a 32-byte head word holding the
offset of the tuple, four 32-byte member-offset words relative to the tuple
start, and for each string a 32-byte length word followed by the raw bytes
padded with zeros to a multiple of 32. -/

/-- The decoded demand record (`LLMDemand` in src/nla.ts lines 71-76). -/
structure LLMDemand where
  arbitrationProvider : Str
  arbitrationModel : Str
  arbitrationPrompt : Str
  demand : Str
deriving DecidableEq, Repr

/-- `bytesBE k n` is the big-endian `k`-byte representation of `n % 256^k`. -/
def bytesBE : Nat → Nat → List Nat
  | 0, _ => []
  | k + 1, n => bytesBE k (n / 256) ++ [n % 256]

/-- A 32-byte ABI word. -/
def word32 (n : Nat) : List Nat := bytesBE 32 n

/-- Big-endian interpretation of a byte list as a natural number. -/
def toNatBE (l : List Nat) : Nat := l.foldl (fun a b => a * 256 + b) 0

/-- Zero-pad a byte string on the right to a multiple of 32 bytes. -/
def padRight (s : Str) : List Nat := s ++ List.replicate ((32 - s.length % 32) % 32) 0

/-- ABI encoding of one dynamic string: length word then padded bytes. -/
def encString (s : Str) : List Nat := word32 s.length ++ padRight s

/-- `encodeDemand` (src/nla.ts lines 101-106): deterministic ABI tuple
encoding of the four string fields in fixed order. -/
def encodeDemand (d : LLMDemand) : List Nat :=
  word32 32 ++
    (word32 128 ++
      (word32 (128 + (encString d.arbitrationProvider).length) ++
        (word32 (128 + (encString d.arbitrationProvider).length +
            (encString d.arbitrationModel).length) ++
          (word32 (128 + (encString d.arbitrationProvider).length +
              (encString d.arbitrationModel).length +
              (encString d.arbitrationPrompt).length) ++
            (encString d.arbitrationProvider ++
              (encString d.arbitrationModel ++
                (encString d.arbitrationPrompt ++ encString d.demand)))))))

/-- The 32-byte word starting at byte position `pos` (unchecked). -/
def wordAt (bs : List Nat) (pos : Nat) : Nat := toNatBE ((bs.drop pos).take 32)

/-- Bounds-checked 32-byte word read: the `viem` cursor throws when a read
would run past the end of the data. -/
def readWord (bs : List Nat) (pos : Nat) : Option Nat :=
  if pos + 32 ≤ bs.length then some (wordAt bs pos) else none

/-- Bounds-checked raw read of `len` bytes at position `pos`. -/
def readBytes (bs : List Nat) (pos len : Nat) : Option (List Nat) :=
  if pos + len ≤ bs.length then some ((bs.drop pos).take len) else none

/-- Decode one dynamic string region (length word, then that many bytes). -/
def decodeString (bs : List Nat) (pos : Nat) : Option Str :=
  (readWord bs pos).bind (fun len => readBytes bs (pos + 32) len)

/-- The structural decode: read the tuple offset, the four member offsets,
then the four strings.  `none` models a thrown `AbiDecoding…` error. -/
def decodeDemandAux (bs : List Nat) : Option LLMDemand :=
  match readWord bs 0 with
  | none => none
  | some t =>
    match readWord bs t with
    | none => none
    | some o1 =>
      match readWord bs (t + 32) with
      | none => none
      | some o2 =>
        match readWord bs (t + 64) with
        | none => none
        | some o3 =>
          match readWord bs (t + 96) with
          | none => none
          | some o4 =>
            match decodeString bs (t + o1) with
            | none => none
            | some s1 =>
              match decodeString bs (t + o2) with
              | none => none
              | some s2 =>
                match decodeString bs (t + o3) with
                | none => none
                | some s3 =>
                  match decodeString bs (t + o4) with
                  | none => none
                  | some s4 => some ⟨s1, s2, s3, s4⟩

/-- The structural decode failure (`DecodeError` in the specification). -/
inductive DecodeError where
  | decodeError
deriving DecidableEq, Repr

/-- `decodeDemand` (src/nla.ts lines 108-111): inverse of `encodeDemand`,
failing with `DecodeError` when the byte layout does not decode. -/
def decodeDemand (bs : List Nat) : Except DecodeError LLMDemand :=
  match decodeDemandAux bs with
  | some d => .ok d
  | none => .error .decodeError

/-- Whether a byte string matches the expected four-string tuple layout.
Stated from the words of the specification: the data must carry a readable tuple
offset, four readable member-offset words, and for each member a readable
length-prefixed byte region, all within the bounds of the data. -/
def strRegionOk (bs : List Nat) (pos : Nat) : Bool :=
  decide (pos + 32 ≤ bs.length) && decide (pos + 32 + wordAt bs pos ≤ bs.length)

/-- Shape check for the expected `(string,string,string,string)` tuple. -/
def tupleShaped4 (bs : List Nat) : Bool :=
  decide (32 ≤ bs.length) &&
    (let t := wordAt bs 0
     decide (t + 128 ≤ bs.length) &&
       (strRegionOk bs (t + wordAt bs t) &&
        strRegionOk bs (t + wordAt bs (t + 32)) &&
        strRegionOk bs (t + wordAt bs (t + 64)) &&
        strRegionOk bs (t + wordAt bs (t + 96))))

/-! ## Reply normalization (`cleanBool`, src/nla.ts lines 78-91) -/

/-- Fuelled worker for `stripTags`: global replacement of the tag pattern
(an opening angle bracket, an optional slash folded into the run, one or more
characters other than a closing angle bracket, then a closing angle bracket or
the end of the string) with the empty string. -/
def stripTagsF : Nat → Str → Str
  | 0, s => s
  | _ + 1, [] => []
  | fuel + 1, c :: rest =>
    if c == 60 then
      let run := rest.takeWhile (fun x => x != 62)
      if run.isEmpty then c :: stripTagsF fuel rest
      else
        match rest.dropWhile (fun x => x != 62) with
        | [] => []
        | _ :: after => stripTagsF fuel after
    else c :: stripTagsF fuel rest

/-- Strip markup tags, the first regex replacement in `cleanBool`. -/
def stripTags (s : Str) : Str := stripTagsF s.length s

/-- Position after the next triple-backtick in `s`, if any. -/
def afterFence : Str → Option Str
  | 96 :: 96 :: 96 :: rest => some rest
  | _ :: rest => afterFence rest
  | [] => none

/-- Fuelled worker for `stripFences`: remove every lazily-matched span from
one triple-backtick to the next. -/
def stripFencesF : Nat → Str → Str
  | 0, s => s
  | _ + 1, [] => []
  | fuel + 1, 96 :: 96 :: 96 :: rest =>
    (match afterFence rest with
     | some after => stripFencesF fuel after
     | none => 96 :: 96 :: 96 :: rest)
  | fuel + 1, c :: rest => c :: stripFencesF fuel rest

/-- Strip code fences, the second regex replacement in `cleanBool`. -/
def stripFences (s : Str) : Str := stripFencesF s.length s

/-- Strip a leading `result:` or `answer:` marker together with the
whitespace after it, the third (anchored) regex replacement in `cleanBool`. -/
def dropVerdictTag (t : Str) : Str :=
  if t.take 7 == strB "result:" then (t.drop 7).dropWhile isWs
  else if t.take 7 == strB "answer:" then (t.drop 7).dropWhile isWs
  else t

/-- `cleanBool` (src/nla.ts lines 78-91): trim and lower-case the raw reply,
strip tags, code fences and a result/answer marker, trimming after each step. -/
def cleanBool (raw : Str) : Str :=
  let t := lowerStr (trimStr raw)
  let t := trimStr (stripTags t)
  let t := trimStr (stripFences t)
  let t := trimStr (dropVerdictTag t)
  t

/-- The verdict computed from a raw backend reply
(src/nla.ts lines 198-199): exact equality of the cleaned reply with the
literal word true. -/
def verdictOfReply (raw : Str) : Bool := cleanBool raw == strB "true"

/-! ## Provider router (`makeLLMClient`/`arbitrate`, src/nla.ts lines 94-224) -/

/-- A registered provider descriptor (`LLMProvider`, src/nla.ts lines 64-69). -/
structure LLMProvider where
  providerName : Str
  apiKey : Option Str := none
  baseURL : Option Str := none
  perplexityApiKey : Option Str := none
deriving DecidableEq, Repr

/-- The fuzzy bidirectional substring test of src/nla.ts lines 116-119:
the provider name contains the demand provider, or conversely, both
lower-cased. -/
def providerMatches (pname dprov : Str) : Bool :=
  containsSub (lowerStr pname) (lowerStr dprov) ||
  containsSub (lowerStr dprov) (lowerStr pname)

/-- Provider selection (src/nla.ts lines 116-121): first registered provider
passing the fuzzy match, else the first registered provider, else none. -/
def selectProvider (providers : List LLMProvider) (dprov : Str) : Option LLMProvider :=
  match providers.find? (fun p => providerMatches p.providerName dprov) with
  | some p => some p
  | none => providers.head?

/-- The closed set of backend families dispatched in src/nla.ts
lines 141-194. -/
inductive BackendKind where
  | openAI
  | anthropic
  | openRouter
deriving DecidableEq, Repr

/-- Backend dispatch on the lower-cased selected provider name
(src/nla.ts lines 140-194); `none` models the thrown unsupported-provider
error of line 193. -/
def dispatchKind (pname : Str) : Option BackendKind :=
  let n := lowerStr pname
  if n == strB "openai" || containsSub n (strB "openai") then some .openAI
  else if n == strB "anthropic" || containsSub n (strB "anthropic") ||
      containsSub n (strB "claude") then some .anthropic
  else if n == strB "openrouter" || containsSub n (strB "openrouter") then some .openRouter
  else none

/-- Prompt rendering (src/nla.ts lines 130-132): replace every demand
placeholder by the demand text, then every obligation placeholder in the
result by the obligation text. -/
def renderPrompt (tmpl dem obl : Str) : Str :=
  replaceAll (replaceAll tmpl (strB "\x7b\x7bdemand\x7d\x7d") dem)
    (strB "\x7b\x7bobligation\x7d\x7d") obl

/-- Outcome of one outbound AI-backend call (`generateText`): either the
reply text or a network/backend error message.  The backend is a parameter
of the embedding since the call leaves the program. -/
def Backend := BackendKind → Str → Str → Except Str Str

/-- The causes collected by the catch of src/nla.ts lines 201-204. -/
inductive ArbCause where
  | noProviderAvailable
  | unsupportedProvider (name : Str)
  | backendError (msg : Str)
deriving DecidableEq, Repr

/-- The single error surfaced by `arbitrate`: the rethrown wrapper of
src/nla.ts line 203, carrying the original cause. -/
inductive ArbError where
  | llmArbitrationFailed (cause : ArbCause)
deriving DecidableEq, Repr

/-- The body of the `try` block of `arbitrate` (src/nla.ts lines 114-199):
select a provider, render the prompt, dispatch to a backend family, invoke
the backend and normalize its reply. -/
def arbitrateTry (providers : List LLMProvider) (backend : Backend)
    (demand : LLMDemand) (obligation : Str) : Except ArbCause Bool :=
  match selectProvider providers demand.arbitrationProvider with
  | none => .error .noProviderAvailable
  | some sel =>
    let prompt := renderPrompt demand.arbitrationPrompt demand.demand obligation
    match dispatchKind sel.providerName with
    | none => .error (.unsupportedProvider sel.providerName)
    | some kind =>
      match backend kind demand.arbitrationModel prompt with
      | .error msg => .error (.backendError msg)
      | .ok text => .ok (verdictOfReply text)

/-- `arbitrate` (src/nla.ts lines 113-205): the try body with its catch,
which rethrows every failure as the arbitration-failed wrapper. -/
def arbitrate (providers : List LLMProvider) (backend : Backend)
    (demand : LLMDemand) (obligation : Str) : Except ArbError Bool :=
  match arbitrateTry providers backend demand obligation with
  | .ok b => .ok b
  | .error c => .error (.llmArbitrationFailed c)

/-! ## Arbitration loop (`arbitrateMany` callback, src/cli/server/oracle.ts
lines 533-594)

The callback decodes the obligation and the demand, validates the demand
data, arbitrates, and catches every exception, returning `false` in that
case.  The two outer decodes (`extractObligationData` and the trusted-oracle
demand decode) are external ledger-client calls; an event therefore carries
their result: the obligation decode outcome and the inner demand bytes. -/

instance {ε α : Type} [DecidableEq ε] [DecidableEq α] : DecidableEq (Except ε α)
  | .error e, .error f =>
    if h : e = f then .isTrue (congrArg _ h)
    else .isFalse (fun c => h (Except.error.inj c))
  | .error _, .ok _ => .isFalse (fun c => Except.noConfusion c)
  | .ok _, .error _ => .isFalse (fun c => Except.noConfusion c)
  | .ok a, .ok b =>
    if h : a = b then .isTrue (congrArg _ h)
    else .isFalse (fun c => h (Except.ok.inj c))

/-- One arbitration-request event as seen by the callback. -/
structure OracleEvent where
  obligationItem : Except Unit Str
  demandBytes : List Nat
deriving DecidableEq

/-- The errors the callback can raise before its catch. -/
inductive OracleErr where
  | obligationDecodeFailed
  | demandDecodeFailed (e : DecodeError)
  | invalidDemandData
  | arbitrationError (e : ArbError)
deriving DecidableEq, Repr

/-- The validation of src/cli/server/oracle.ts line 558: the demand text and
model must be non-empty and the model must not contain an embedded NUL. -/
def validDemandData (d : LLMDemand) : Bool :=
  !d.demand.isEmpty && !d.arbitrationModel.isEmpty && !(d.arbitrationModel.contains 0)

/-- The callback body up to (but not including) its catch
(src/cli/server/oracle.ts lines 538-573). -/
def oracleCallbackTry (providers : List LLMProvider) (backend : Backend)
    (ev : OracleEvent) : Except OracleErr Bool :=
  match ev.obligationItem with
  | .error _ => .error .obligationDecodeFailed
  | .ok obligationItem =>
    match decodeDemand ev.demandBytes with
    | .error e => .error (.demandDecodeFailed e)
    | .ok nlaDemandData =>
      if !validDemandData nlaDemandData then .error .invalidDemandData
      else
        match arbitrate providers backend nlaDemandData obligationItem with
        | .error e => .error (.arbitrationError e)
        | .ok result => .ok result

/-- The full callback (src/cli/server/oracle.ts lines 538-578): the catch
branch returns `false` instead of rethrowing, to keep the oracle running. -/
def oracleCallback (providers : List LLMProvider) (backend : Backend)
    (ev : OracleEvent) : Bool :=
  match oracleCallbackTry providers backend ev with
  | .ok b => b
  | .error _ => false

/-- One polling session: the `arbitrateMany` watcher invokes the callback on
every delivered event, and the boolean it returns is the decision handed to
the decision-recording primitive of the ledger. -/
def runLoop (providers : List LLMProvider) (backend : Backend)
    (events : List OracleEvent) : List Bool :=
  events.map (oracleCallback providers backend)

/-! ## Commit-reveal coordinator

Modelled from the spec: the commit-reveal primitives (`computeCommitment`,
`commit`, the confirmation wait, `doObligation`, `reclaimBond`) are
implemented by the external ledger client (`client.commitReveal` from the
alkahest library) and are not present under src/; only their caller, the
fulfill-escrow CLI flow (src/unnamed/part_009 lines 180-205), is.  The state
machine below follows spec section 4.2 (`Unstarted -> Committed -> Revealed
-> BondReclaimed`, reveal only after the commit transaction is confirmed) and
section 7 (reveal-before-confirmation and double bond reclaim are
`CommitRevealViolation`). -/

/-- State of one fulfillment attempt; `committed` records whether the commit
transaction has been confirmed. -/
inductive CRState where
  | unstarted
  | committed (confirmed : Bool)
  | revealed
  | bondReclaimed
deriving DecidableEq, Repr

/-- The commit-reveal protocol violation of spec section 7. -/
inductive CRError where
  | commitRevealViolation
deriving DecidableEq, Repr

/-- Submit the commitment with its bond. -/
def commitOp : CRState → Except CRError CRState
  | .unstarted => .ok (.committed false)
  | _ => .error .commitRevealViolation

/-- Wait for the confirmation of the commit transaction
(`waitForTransactionReceipt` in the CLI flow). -/
def confirmOp : CRState → CRState
  | .committed _ => .committed true
  | s => s

/-- Reveal step: create the obligation attestation.  Rejected unless the
commitment is confirmed. -/
def doObligationOp : CRState → Except CRError CRState
  | .committed true => .ok .revealed
  | _ => .error .commitRevealViolation

/-- Release the bond after a valid reveal; fails loudly when called again. -/
def reclaimBondOp : CRState → Except CRError CRState
  | .revealed => .ok .bondReclaimed
  | _ => .error .commitRevealViolation

/-- The fulfill-escrow CLI flow of src/unnamed/part_009 lines 180-205:
commit, wait for the receipt, reveal, reclaim the bond. -/
def fulfillFlow : Except CRError CRState :=
  match commitOp .unstarted with
  | .error e => .error e
  | .ok s1 =>
    let s2 := confirmOp s1
    match doObligationOp s2 with
    | .error e => .error e
    | .ok s3 => reclaimBondOp s3

/-! ## Codec lemmas -/

lemma length_bytesBE (k n : Nat) : (bytesBE k n).length = k := by
  induction k generalizing n with
  | zero => simp [bytesBE]
  | succ k ih => simp [bytesBE, ih]

lemma length_word32 (n : Nat) : (word32 n).length = 32 := length_bytesBE 32 n

lemma toNatBE_bytesBE (k n : Nat) : toNatBE (bytesBE k n) = n % 256 ^ k := by
  induction k generalizing n with
  | zero => simp [bytesBE, toNatBE, Nat.mod_one]
  | succ k ih =>
    have h := ih (n / 256)
    simp only [bytesBE, toNatBE, List.foldl_append, List.foldl_cons, List.foldl_nil] at h ⊢
    rw [h, pow_succ']
    rw [Nat.mod_mul]
    omega

lemma toNatBE_word32 (n : Nat) (hn : n < 256 ^ 32) : toNatBE (word32 n) = n := by
  rw [word32, toNatBE_bytesBE, Nat.mod_eq_of_lt hn]

lemma readWord_at (a b : List Nat) (n pos : Nat) (hp : pos = a.length)
    (hn : n < 256 ^ 32) : readWord (a ++ (word32 n ++ b)) pos = some n := by
  subst hp
  have hl : (a ++ (word32 n ++ b)).length = a.length + (32 + b.length) := by
    simp [List.length_append, length_word32]
  rw [readWord, if_pos (by omega)]
  have hdrop : (a ++ (word32 n ++ b)).drop a.length = word32 n ++ b :=
    List.drop_left a _
  have htake : (word32 n ++ b).take 32 = word32 n := by
    conv_lhs => rw [← length_word32 n]
    exact List.take_left _ _
  rw [wordAt, hdrop, htake, toNatBE_word32 n hn]

lemma readBytes_at (a s b : List Nat) (pos : Nat) (hp : pos = a.length) :
    readBytes (a ++ (s ++ b)) pos s.length = some s := by
  subst hp
  have hl : (a ++ (s ++ b)).length = a.length + (s.length + b.length) := by
    simp [List.length_append]
  rw [readBytes, if_pos (by omega)]
  have hdrop : (a ++ (s ++ b)).drop a.length = s ++ b := List.drop_left a _
  rw [hdrop, List.take_left]

lemma length_encString_le (s : Str) : (encString s).length ≤ s.length + 63 := by
  have hm : (32 - s.length % 32) % 32 < 32 := Nat.mod_lt _ (by norm_num)
  simp [encString, padRight, List.length_append, length_word32]
  omega

lemma readWord_zero (b : List Nat) (n : Nat) (hn : n < 256 ^ 32) :
    readWord (word32 n ++ b) 0 = some n := by
  simpa using readWord_at [] b n 0 rfl hn

lemma readWord_shift (w rest : List Nat) (pos pos' : Nat)
    (h : pos = w.length + pos') : readWord (w ++ rest) pos = readWord rest pos' := by
  subst h
  rw [readWord, readWord, List.length_append]
  by_cases hb : pos' + 32 ≤ rest.length
  · rw [if_pos (by omega), if_pos hb, wordAt, wordAt, List.drop_append]
  · rw [if_neg (by omega), if_neg hb]

lemma readBytes_shift (w rest : List Nat) (pos pos' len : Nat)
    (h : pos = w.length + pos') :
    readBytes (w ++ rest) pos len = readBytes rest pos' len := by
  subst h
  rw [readBytes, readBytes, List.length_append]
  by_cases hb : pos' + len ≤ rest.length
  · rw [if_pos (by omega), if_pos hb, List.drop_append]
  · rw [if_neg (by omega), if_neg hb]

lemma decodeString_shift (w rest : List Nat) (pos pos' : Nat)
    (h : pos = w.length + pos') :
    decodeString (w ++ rest) pos = decodeString rest pos' := by
  subst h
  rw [decodeString, decodeString, readWord_shift w rest _ pos' rfl]
  cases hrw : readWord rest pos' with
  | none => simp
  | some len =>
    simp only [Option.some_bind]
    exact readBytes_shift w rest _ (pos' + 32) len (by omega)

lemma decodeString_encString (s b : List Nat) (hn : s.length < 256 ^ 32) :
    decodeString (encString s ++ b) 0 = some s := by
  have h1 : encString s ++ b = word32 s.length ++ (padRight s ++ b) := by
    simp [encString, List.append_assoc]
  rw [h1, decodeString, readWord_zero (padRight s ++ b) s.length hn]
  simp only [Option.some_bind]
  have h2 : word32 s.length ++ (padRight s ++ b) =
      (word32 s.length ++ (s ++ (List.replicate ((32 - s.length % 32) % 32) 0 ++ b))) := by
    simp [padRight, List.append_assoc]
  rw [h2]
  have h3 : word32 s.length ++ (s ++ (List.replicate ((32 - s.length % 32) % 32) 0 ++ b)) =
      (word32 s.length) ++ (s ++ (List.replicate ((32 - s.length % 32) % 32) 0 ++ b)) := rfl
  have := readBytes_at (word32 s.length) s
    (List.replicate ((32 - s.length % 32) % 32) 0 ++ b) (0 + 32)
    (by simp [length_word32])
  exact this

lemma decodeString_encString_nil (s : List Nat) (hn : s.length < 256 ^ 32) :
    decodeString (encString s) 0 = some s := by
  have h := decodeString_encString s [] hn
  simpa using h

lemma decodeAux_encode (s1 s2 s3 s4 : Str)
    (h1 : s1.length ≤ 2 ^ 60) (h2 : s2.length ≤ 2 ^ 60)
    (h3 : s3.length ≤ 2 ^ 60) (h4 : s4.length ≤ 2 ^ 60) :
    decodeDemandAux (encodeDemand ⟨s1, s2, s3, s4⟩) = some ⟨s1, s2, s3, s4⟩ := by
  have hEq : encodeDemand ⟨s1, s2, s3, s4⟩ =
      word32 32 ++ (word32 128 ++ (word32 (128 + (encString s1).length) ++
        (word32 (128 + (encString s1).length + (encString s2).length) ++
          (word32 (128 + (encString s1).length + (encString s2).length +
              (encString s3).length) ++
            (encString s1 ++ (encString s2 ++ (encString s3 ++ encString s4))))))) := rfl
  have e1b := length_encString_le s1
  have e2b := length_encString_le s2
  have e3b := length_encString_le s3
  have big : (2 : ℕ) ^ 60 * 3 + 500 < 256 ^ 32 := by norm_num
  have hb1 : s1.length < 256 ^ 32 := by omega
  have hb2 : s2.length < 256 ^ 32 := by omega
  have hb3 : s3.length < 256 ^ 32 := by omega
  have hb4 : s4.length < 256 ^ 32 := by omega
  have hO2 : 128 + (encString s1).length < 256 ^ 32 := by omega
  have hO3 : 128 + (encString s1).length + (encString s2).length < 256 ^ 32 := by omega
  have hO4 : 128 + (encString s1).length + (encString s2).length +
      (encString s3).length < 256 ^ 32 := by omega
  have r0 : readWord (encodeDemand ⟨s1, s2, s3, s4⟩) 0 = some 32 := by
    rw [hEq]; exact readWord_zero _ 32 (by norm_num)
  have r1 : readWord (encodeDemand ⟨s1, s2, s3, s4⟩) 32 = some 128 := by
    rw [hEq, readWord_shift (word32 32) _ 32 0 (by simp only [length_word32]; try omega)]
    exact readWord_zero _ 128 (by norm_num)
  have r2 : readWord (encodeDemand ⟨s1, s2, s3, s4⟩) 64 =
      some (128 + (encString s1).length) := by
    rw [hEq, readWord_shift (word32 32) _ 64 32 (by simp only [length_word32]; try omega),
      readWord_shift (word32 128) _ 32 0 (by simp only [length_word32]; try omega)]
    exact readWord_zero _ _ hO2
  have r3 : readWord (encodeDemand ⟨s1, s2, s3, s4⟩) 96 =
      some (128 + (encString s1).length + (encString s2).length) := by
    rw [hEq, readWord_shift (word32 32) _ 96 64 (by simp only [length_word32]; try omega),
      readWord_shift (word32 128) _ 64 32 (by simp only [length_word32]; try omega),
      readWord_shift (word32 (128 + (encString s1).length)) _ 32 0
        (by simp only [length_word32]; try omega)]
    exact readWord_zero _ _ hO3
  have r4 : readWord (encodeDemand ⟨s1, s2, s3, s4⟩) 128 =
      some (128 + (encString s1).length + (encString s2).length +
        (encString s3).length) := by
    rw [hEq, readWord_shift (word32 32) _ 128 96 (by simp only [length_word32]; try omega),
      readWord_shift (word32 128) _ 96 64 (by simp only [length_word32]; try omega),
      readWord_shift (word32 (128 + (encString s1).length)) _ 64 32
        (by simp only [length_word32]; try omega),
      readWord_shift (word32 (128 + (encString s1).length + (encString s2).length)) _ 32 0
        (by simp only [length_word32]; try omega)]
    exact readWord_zero _ _ hO4
  have hs1 : decodeString (encodeDemand ⟨s1, s2, s3, s4⟩) 160 = some s1 := by
    rw [hEq,
      decodeString_shift (word32 32) _ 160 128 (by simp only [length_word32]; try omega),
      decodeString_shift (word32 128) _ 128 96 (by simp only [length_word32]; try omega),
      decodeString_shift (word32 (128 + (encString s1).length)) _ 96 64
        (by simp only [length_word32]; try omega),
      decodeString_shift (word32 (128 + (encString s1).length + (encString s2).length))
        _ 64 32 (by simp only [length_word32]; try omega),
      decodeString_shift (word32 (128 + (encString s1).length + (encString s2).length +
        (encString s3).length)) _ 32 0 (by simp only [length_word32]; try omega)]
    exact decodeString_encString s1 _ hb1
  have hs2 : decodeString (encodeDemand ⟨s1, s2, s3, s4⟩)
      (160 + (encString s1).length) = some s2 := by
    rw [hEq,
      decodeString_shift (word32 32) _ (160 + (encString s1).length)
        (128 + (encString s1).length) (by simp only [length_word32]; try omega),
      decodeString_shift (word32 128) _ (128 + (encString s1).length)
        (96 + (encString s1).length) (by simp only [length_word32]; try omega),
      decodeString_shift (word32 (128 + (encString s1).length)) _
        (96 + (encString s1).length) (64 + (encString s1).length)
        (by simp only [length_word32]; try omega),
      decodeString_shift (word32 (128 + (encString s1).length + (encString s2).length))
        _ (64 + (encString s1).length) (32 + (encString s1).length)
        (by simp only [length_word32]; try omega),
      decodeString_shift (word32 (128 + (encString s1).length + (encString s2).length +
        (encString s3).length)) _ (32 + (encString s1).length) ((encString s1).length)
        (by simp only [length_word32]; try omega),
      decodeString_shift (encString s1) _ ((encString s1).length) 0 (by omega)]
    exact decodeString_encString s2 _ hb2
  have hs3 : decodeString (encodeDemand ⟨s1, s2, s3, s4⟩)
      (160 + (encString s1).length + (encString s2).length) = some s3 := by
    rw [hEq,
      decodeString_shift (word32 32) _
        (160 + (encString s1).length + (encString s2).length)
        (128 + (encString s1).length + (encString s2).length)
        (by simp only [length_word32]; try omega),
      decodeString_shift (word32 128) _
        (128 + (encString s1).length + (encString s2).length)
        (96 + (encString s1).length + (encString s2).length)
        (by simp only [length_word32]; try omega),
      decodeString_shift (word32 (128 + (encString s1).length)) _
        (96 + (encString s1).length + (encString s2).length)
        (64 + (encString s1).length + (encString s2).length)
        (by simp only [length_word32]; try omega),
      decodeString_shift (word32 (128 + (encString s1).length + (encString s2).length))
        _ (64 + (encString s1).length + (encString s2).length)
        (32 + (encString s1).length + (encString s2).length)
        (by simp only [length_word32]; try omega),
      decodeString_shift (word32 (128 + (encString s1).length + (encString s2).length +
        (encString s3).length)) _
        (32 + (encString s1).length + (encString s2).length)
        ((encString s1).length + (encString s2).length)
        (by simp only [length_word32]; try omega),
      decodeString_shift (encString s1) _
        ((encString s1).length + (encString s2).length) ((encString s2).length)
        (by omega),
      decodeString_shift (encString s2) _ ((encString s2).length) 0 (by omega)]
    exact decodeString_encString s3 _ hb3
  have hs4 : decodeString (encodeDemand ⟨s1, s2, s3, s4⟩)
      (160 + (encString s1).length + (encString s2).length +
        (encString s3).length) = some s4 := by
    rw [hEq,
      decodeString_shift (word32 32) _
        (160 + (encString s1).length + (encString s2).length + (encString s3).length)
        (128 + (encString s1).length + (encString s2).length + (encString s3).length)
        (by simp only [length_word32]; try omega),
      decodeString_shift (word32 128) _
        (128 + (encString s1).length + (encString s2).length + (encString s3).length)
        (96 + (encString s1).length + (encString s2).length + (encString s3).length)
        (by simp only [length_word32]; try omega),
      decodeString_shift (word32 (128 + (encString s1).length)) _
        (96 + (encString s1).length + (encString s2).length + (encString s3).length)
        (64 + (encString s1).length + (encString s2).length + (encString s3).length)
        (by simp only [length_word32]; try omega),
      decodeString_shift (word32 (128 + (encString s1).length + (encString s2).length))
        _ (64 + (encString s1).length + (encString s2).length + (encString s3).length)
        (32 + (encString s1).length + (encString s2).length + (encString s3).length)
        (by simp only [length_word32]; try omega),
      decodeString_shift (word32 (128 + (encString s1).length + (encString s2).length +
        (encString s3).length)) _
        (32 + (encString s1).length + (encString s2).length + (encString s3).length)
        ((encString s1).length + (encString s2).length + (encString s3).length)
        (by simp only [length_word32]; try omega),
      decodeString_shift (encString s1) _
        ((encString s1).length + (encString s2).length + (encString s3).length)
        ((encString s2).length + (encString s3).length) (by omega),
      decodeString_shift (encString s2) _
        ((encString s2).length + (encString s3).length) ((encString s3).length)
        (by omega),
      decodeString_shift (encString s3) _ ((encString s3).length) 0 (by omega)]
    exact decodeString_encString_nil s4 hb4
  have p2 : 32 + (128 + (encString s1).length) = 160 + (encString s1).length := by omega
  have p3 : 32 + (128 + (encString s1).length + (encString s2).length) =
      160 + (encString s1).length + (encString s2).length := by omega
  have p4 : 32 + (128 + (encString s1).length + (encString s2).length +
      (encString s3).length) =
      160 + (encString s1).length + (encString s2).length + (encString s3).length := by
    omega
  simp only [decodeDemandAux, r0, Nat.reduceAdd, r1, r2, r3, r4, p2, p3, p4,
    hs1, hs2, hs3, hs4]

lemma readWord_eq_some {bs : List Nat} {pos v : Nat} (h : readWord bs pos = some v) :
    pos + 32 ≤ bs.length ∧ v = wordAt bs pos := by
  rw [readWord] at h
  by_cases hb : pos + 32 ≤ bs.length
  · rw [if_pos hb] at h
    exact ⟨hb, (Option.some.inj h).symm⟩
  · rw [if_neg hb] at h
    exact absurd h (by simp)

lemma readBytes_eq_some {bs v : List Nat} {pos len : Nat}
    (h : readBytes bs pos len = some v) : pos + len ≤ bs.length := by
  rw [readBytes] at h
  by_cases hb : pos + len ≤ bs.length
  · exact hb
  · rw [if_neg hb] at h
    exact absurd h (by simp)

lemma decodeString_eq_some {bs : List Nat} {pos : Nat} {s : Str}
    (h : decodeString bs pos = some s) :
    pos + 32 ≤ bs.length ∧ pos + 32 + wordAt bs pos ≤ bs.length := by
  rw [decodeString] at h
  cases hw : readWord bs pos with
  | none => rw [hw] at h; simp at h
  | some len =>
    rw [hw] at h
    simp only [Option.some_bind] at h
    obtain ⟨hb, hv⟩ := readWord_eq_some hw
    have hbb := readBytes_eq_some h
    subst hv
    exact ⟨hb, hbb⟩

lemma shape_of_aux (bs : List Nat) (d : LLMDemand)
    (h : decodeDemandAux bs = some d) : tupleShaped4 bs = true := by
  rw [decodeDemandAux] at h
  cases h0 : readWord bs 0 with
  | none => exact absurd h (by simp [h0])
  | some t =>
    simp only [h0] at h
    obtain ⟨ht, htv⟩ := readWord_eq_some h0
    cases h1 : readWord bs t with
    | none => exact absurd h (by simp [h1])
    | some o1 =>
      simp only [h1] at h
      cases h2 : readWord bs (t + 32) with
      | none => exact absurd h (by simp [h2])
      | some o2 =>
        simp only [h2] at h
        cases h3 : readWord bs (t + 64) with
        | none => exact absurd h (by simp [h3])
        | some o3 =>
          simp only [h3] at h
          cases h4 : readWord bs (t + 96) with
          | none => exact absurd h (by simp [h4])
          | some o4 =>
            simp only [h4] at h
            obtain ⟨hb1, hv1⟩ := readWord_eq_some h1
            obtain ⟨hb2, hv2⟩ := readWord_eq_some h2
            obtain ⟨hb3, hv3⟩ := readWord_eq_some h3
            obtain ⟨hb4, hv4⟩ := readWord_eq_some h4
            cases g1 : decodeString bs (t + o1) with
            | none => exact absurd h (by simp [g1])
            | some s1 =>
              simp only [g1] at h
              cases g2 : decodeString bs (t + o2) with
              | none => exact absurd h (by simp [g2])
              | some s2 =>
                simp only [g2] at h
                cases g3 : decodeString bs (t + o3) with
                | none => exact absurd h (by simp [g3])
                | some s3 =>
                  simp only [g3] at h
                  cases g4 : decodeString bs (t + o4) with
                  | none => exact absurd h (by simp [g4])
                  | some s4 =>
                    obtain ⟨ga1, gb1⟩ := decodeString_eq_some g1
                    obtain ⟨ga2, gb2⟩ := decodeString_eq_some g2
                    obtain ⟨ga3, gb3⟩ := decodeString_eq_some g3
                    obtain ⟨ga4, gb4⟩ := decodeString_eq_some g4
                    subst htv hv1 hv2 hv3 hv4
                    simp only [tupleShaped4, strRegionOk, Bool.and_eq_true,
                      decide_eq_true_eq]
                    omega

/-! ## Concrete fixtures used by witnesses and counterexamples -/

/-- The provider list of a typically configured oracle. -/
def providersEx : List LLMProvider :=
  [⟨strB "OpenAI", none, none, none⟩, ⟨strB "Anthropic", none, none, none⟩]

/-- A concrete well-formed demand. -/
def demandEx : LLMDemand :=
  ⟨strB "OpenAI", strB "gpt-4o",
    strB "Demand: \x7b\x7bdemand\x7d\x7d Fulfillment: \x7b\x7bobligation\x7d\x7d",
    strB "The sky is blue"⟩

/-- A backend that always fails with a network error. -/
def failingBackend : Backend := fun _ _ _ => .error (strB "network error")

/-- A backend that always replies with the literal text true. -/
def okBackend : Backend := fun _ _ _ => .ok (strB "true")

/-! ## Claim theorems -/

/-- C3: for every demand value (four arbitrary byte strings, empty strings
included, of any realistic size), decoding the encoding returns the original
value: `decodeDemand (encodeDemand d) = .ok d`, with `encodeDemand` the
deterministic ABI-style tuple encoding in fixed field order. -/
theorem decodeDemand_encodeDemand_roundtrip (d : LLMDemand)
    (h1 : d.arbitrationProvider.length ≤ 2 ^ 60)
    (h2 : d.arbitrationModel.length ≤ 2 ^ 60)
    (h3 : d.arbitrationPrompt.length ≤ 2 ^ 60)
    (h4 : d.demand.length ≤ 2 ^ 60) :
    decodeDemand (encodeDemand d) = .ok d := by
  obtain ⟨s1, s2, s3, s4⟩ := d
  rw [decodeDemand, decodeAux_encode s1 s2 s3 s4 h1 h2 h3 h4]

set_option maxRecDepth 8000 in
/-- Witness for C3: the round trip evaluated at a concrete demand. -/
theorem decodeDemand_encodeDemand_roundtrip_witness :
    decodeDemand (encodeDemand demandEx) = .ok demandEx :=
  decodeDemand_encodeDemand_roundtrip demandEx (by decide) (by decide)
    (by decide) (by decide)

/-- C7: every byte string whose layout does not match the expected
four-string tuple shape is rejected by `decodeDemand` with a `DecodeError`
rather than decoded into a demand value. -/
theorem decodeDemand_error_of_not_tupleShaped (bs : List Nat)
    (h : tupleShaped4 bs = false) : decodeDemand bs = .error .decodeError := by
  cases hd : decodeDemandAux bs with
  | none => rw [decodeDemand, hd]
  | some d =>
    rw [shape_of_aux bs d hd] at h
    exact absurd h (by simp)

/-- Witness for C7: the empty byte string is not tuple shaped and decoding
it fails with a `DecodeError`. -/
theorem decodeDemand_error_of_not_tupleShaped_witness :
    tupleShaped4 [] = false ∧ decodeDemand [] = .error .decodeError :=
  ⟨by decide, decodeDemand_error_of_not_tupleShaped [] (by decide)⟩

lemma find?_first_match (f : LLMProvider → Bool) (ps₁ ps₂ : List LLMProvider)
    (p : LLMProvider) (hp : f p = true) (hn : ∀ q ∈ ps₁, f q = false) :
    (ps₁ ++ p :: ps₂).find? f = some p := by
  induction ps₁ with
  | nil => simp [List.find?_cons_of_pos, hp]
  | cons q qs ih =>
    rw [List.cons_append, List.find?_cons_of_neg _ (by simp [hn q (by simp)])]
    exact ih (fun r hr => hn r (by simp [hr]))

/-- C4: `arbitrate` selects by case-insensitive bidirectional substring
match: the first registered provider that matches wins, a non-matching
demand falls back to the first registered provider, and with no registered
providers `arbitrate` fails with the no-provider error instead of returning
a verdict. -/
theorem arbitrate_provider_selection (ps : List LLMProvider) (bk : Backend)
    (d : LLMDemand) (ob : Str) :
    (ps = [] →
      arbitrate ps bk d ob = .error (.llmArbitrationFailed .noProviderAvailable)) ∧
    (∀ ps₁ p ps₂, ps = ps₁ ++ p :: ps₂ →
      providerMatches p.providerName d.arbitrationProvider = true →
      (∀ q ∈ ps₁, providerMatches q.providerName d.arbitrationProvider = false) →
      selectProvider ps d.arbitrationProvider = some p) ∧
    ((∀ q ∈ ps, providerMatches q.providerName d.arbitrationProvider = false) →
      selectProvider ps d.arbitrationProvider = ps.head?) := by
  refine ⟨?_, ?_, ?_⟩
  · intro h
    subst h
    simp [arbitrate, arbitrateTry, selectProvider]
  · intro ps₁ p ps₂ hps hp hnone
    subst hps
    simp only [selectProvider,
      find?_first_match (fun q => providerMatches q.providerName d.arbitrationProvider)
        ps₁ ps₂ p hp hnone]
  · intro hall
    have hfind : ps.find? (fun q => providerMatches q.providerName d.arbitrationProvider)
        = none :=
      List.find?_eq_none.mpr (fun x hx => by simp [hall x hx])
    simp only [selectProvider, hfind]

/-- Witness for C4: with providers OpenAI then Anthropic, an empty list
fails with the no-provider error, and a demand naming openai selects the
OpenAI provider by case-insensitive substring match. -/
theorem arbitrate_provider_selection_witness :
    arbitrate [] okBackend demandEx (strB "x") =
      .error (.llmArbitrationFailed .noProviderAvailable) ∧
    selectProvider providersEx (strB "openai") =
      some ⟨strB "OpenAI", none, none, none⟩ := by
  refine ⟨(arbitrate_provider_selection [] okBackend demandEx (strB "x")).1 rfl, ?_⟩
  exact (arbitrate_provider_selection providersEx okBackend
      ⟨strB "openai", strB "m", strB "p", strB "x"⟩ (strB "ob")).2.1
    [] ⟨strB "OpenAI", none, none, none⟩ [⟨strB "Anthropic", none, none, none⟩]
    rfl (by decide) (by intro q hq; simp at hq)

/-- C5: the reply-normalization of `cleanBool` maps the raw replies TRUE,
whitespace-padded true, tag-wrapped true and result-prefixed true to the
verdict true, and every reply whose normal form is not exactly the word
true (ambiguous text, explanations, the empty reply) to false, never to an
error. -/
theorem verdictOfReply_normalization :
    verdictOfReply (strB "TRUE") = true ∧
    verdictOfReply (strB "  true\n") = true ∧
    verdictOfReply (strB "<answer>true</answer>") = true ∧
    verdictOfReply (strB "result: true") = true ∧
    verdictOfReply (strB "I think so") = false ∧
    verdictOfReply (strB "false, because...") = false ∧
    verdictOfReply (strB "") = false ∧
    (∀ raw : Str, cleanBool raw ≠ strB "true" → verdictOfReply raw = false) := by
  refine ⟨by decide, by decide, by decide, by decide, by decide, by decide,
    by decide, ?_⟩
  intro raw h
  rw [verdictOfReply]
  exact beq_eq_false_iff_ne.mpr h

/-- Witness for C5: a reply that merely mentions true normalizes to the
verdict false. -/
theorem verdictOfReply_normalization_witness :
    verdictOfReply (strB "maybe true") = false :=
  verdictOfReply_normalization.2.2.2.2.2.2.2 (strB "maybe true") (by decide)

/-- C9: prompt rendering substitutes sequentially: first every demand
placeholder is replaced by the demand text, and only then every obligation
placeholder in the resulting string is replaced by the obligation text, so
an obligation placeholder occurring inside the demand text is also
substituted and the rendered prompt is not independent of placeholder
tokens in the demand text. -/
theorem renderPrompt_sequential_substitution :
    (∀ tmpl dem obl : Str,
      renderPrompt tmpl dem obl =
        replaceAll (replaceAll tmpl (strB "\x7b\x7bdemand\x7d\x7d") dem)
          (strB "\x7b\x7bobligation\x7d\x7d") obl) ∧
    (∀ obl : Str,
      renderPrompt (strB "\x7b\x7bdemand\x7d\x7d")
        (strB "x \x7b\x7bobligation\x7d\x7d y") obl =
        strB "x " ++ obl ++ strB " y") := by
  refine ⟨fun _ _ _ => rfl, ?_⟩
  intro obl
  have e1 : strB "\x7b\x7bdemand\x7d\x7d" =
      [123, 123, 100, 101, 109, 97, 110, 100, 125, 125] := by decide
  have e2 : strB "\x7b\x7bobligation\x7d\x7d" =
      [123, 123, 111, 98, 108, 105, 103, 97, 116, 105, 111, 110, 125, 125] := by
    decide
  have e3 : strB "x \x7b\x7bobligation\x7d\x7d y" =
      [120, 32, 123, 123, 111, 98, 108, 105, 103, 97, 116, 105, 111, 110,
        125, 125, 32, 121] := by decide
  have e4 : strB "x " = [120, 32] := by decide
  have e5 : strB " y" = [32, 121] := by decide
  rw [renderPrompt, e1, e2, e3, e4, e5]
  simp [replaceAll, replaceAllF, startsWith, List.drop]

lemma startsWith_refl (s : Str) : startsWith s s = true := by
  induction s with
  | nil => rfl
  | cons c cs ih => simp [startsWith, ih]

lemma containsSub_self (s : Str) : containsSub s s = true := by
  cases s with
  | nil => rfl
  | cons c cs => simp [containsSub, startsWith_refl]

lemma beq_false_of_not_containsSub {n p : Str} (h : containsSub n p = false) :
    (n == p) = false := by
  by_cases he : n = p
  · subst he
    rw [containsSub_self] at h
    exact absurd h (by simp)
  · simp [he]

/-- C10: when the lower-cased name of the fuzzy-selected provider neither equals
nor contains any of the recognized backend names (openai, anthropic,
claude, openrouter), `arbitrate` fails with the unsupported-provider
arbitration error instead of returning a boolean verdict. -/
theorem arbitrate_unsupported_provider (ps : List LLMProvider) (bk : Backend)
    (d : LLMDemand) (ob : Str) (sel : LLMProvider)
    (hsel : selectProvider ps d.arbitrationProvider = some sel)
    (h1 : containsSub (lowerStr sel.providerName) (strB "openai") = false)
    (h2 : containsSub (lowerStr sel.providerName) (strB "anthropic") = false)
    (h3 : containsSub (lowerStr sel.providerName) (strB "claude") = false)
    (h4 : containsSub (lowerStr sel.providerName) (strB "openrouter") = false) :
    arbitrate ps bk d ob =
      .error (.llmArbitrationFailed (.unsupportedProvider sel.providerName)) := by
  have hk : dispatchKind sel.providerName = none := by
    rw [dispatchKind]
    simp [beq_false_of_not_containsSub h1, h1,
      beq_false_of_not_containsSub h2, h2, h3,
      beq_false_of_not_containsSub h4, h4]
  simp only [arbitrate, arbitrateTry, hsel, hk]

/-- Witness for C10: a registered Gemini provider is selected by the fuzzy
match but rejected by the backend dispatch. -/
theorem arbitrate_unsupported_provider_witness :
    arbitrate [⟨strB "Gemini", none, none, none⟩] okBackend
      ⟨strB "gemini", strB "g-1", strB "p", strB "x"⟩ (strB "ob") =
      .error (.llmArbitrationFailed (.unsupportedProvider (strB "Gemini"))) :=
  arbitrate_unsupported_provider [⟨strB "Gemini", none, none, none⟩] okBackend
    ⟨strB "gemini", strB "g-1", strB "p", strB "x"⟩ (strB "ob")
    ⟨strB "Gemini", none, none, none⟩ (by decide) (by decide) (by decide)
    (by decide) (by decide)

/-- An event whose demand decodes to `demandEx`. -/
def evFail : OracleEvent := ⟨.ok (strB "The sky looks blue"), encodeDemand demandEx⟩

/-- A structurally decodable demand whose model contains an embedded NUL. -/
def demandNul : LLMDemand :=
  ⟨strB "OpenAI", strB "gpt-4o" ++ [0], strB "p", strB "d"⟩

/-- An event carrying the NUL-model demand. -/
def evNul : OracleEvent := ⟨.ok (strB "x"), encodeDemand demandNul⟩

/-- A well-formed event used to show the loop keeps deciding. -/
def evGood : OracleEvent := ⟨.ok (strB "x"), encodeDemand demandEx⟩

set_option maxRecDepth 8000 in
/-- C1 counterexample: at a concrete event whose backend call fails with a
network error, the arbitration attempt fails with the arbitration-failed
error carrying that cause, yet the oracle callback returns the decision
false — the loop level coerces the error into a false verdict, contrary to
the claim that no false verdict is produced at either level. -/
theorem backend_error_coerced_to_false_counterexample :
    oracleCallbackTry providersEx failingBackend evFail =
      .error (.arbitrationError
        (.llmArbitrationFailed (.backendError (strB "network error")))) ∧
    oracleCallback providersEx failingBackend evFail = false := by
  constructor <;> decide

/-- C1 (amended): when the backend call for the selected provider fails,
the Provider Router function `arbitrate` propagates the arbitration-failed error
carrying the original cause, never an ok-false verdict; the oracle
`arbitrateMany` callback, however, catches that error and returns the
decision false to keep the oracle running. -/
theorem backend_error_routing (ps : List LLMProvider) (bk : Backend)
    (d : LLMDemand) (ob : Str) (sel : LLMProvider) (kind : BackendKind)
    (msg : Str)
    (hsel : selectProvider ps d.arbitrationProvider = some sel)
    (hkind : dispatchKind sel.providerName = some kind)
    (hbk : bk kind d.arbitrationModel
        (renderPrompt d.arbitrationPrompt d.demand ob) = .error msg) :
    arbitrate ps bk d ob =
      .error (.llmArbitrationFailed (.backendError msg)) ∧
    (∀ ev : OracleEvent, ev.obligationItem = .ok ob →
      decodeDemand ev.demandBytes = .ok d →
      validDemandData d = true →
      oracleCallback ps bk ev = false) := by
  have harb : arbitrate ps bk d ob =
      .error (.llmArbitrationFailed (.backendError msg)) := by
    simp only [arbitrate, arbitrateTry, hsel, hkind, hbk]
  refine ⟨harb, ?_⟩
  intro ev hob hdec hval
  simp [oracleCallback, oracleCallbackTry, hob, hdec, hval, harb]

set_option maxRecDepth 8000 in
/-- Witness for the amended C1 at a concrete failing backend. -/
theorem backend_error_routing_witness :
    arbitrate providersEx failingBackend demandEx (strB "The sky looks blue") =
      .error (.llmArbitrationFailed (.backendError (strB "network error"))) ∧
    oracleCallback providersEx failingBackend evFail = false := by
  have h := backend_error_routing providersEx failingBackend demandEx
    (strB "The sky looks blue") ⟨strB "OpenAI", none, none, none⟩ .openAI
    (strB "network error") (by decide) (by decide) rfl
  exact ⟨h.1, h.2 evFail rfl (by decide) (by decide)⟩

set_option maxRecDepth 8000 in
/-- C2 (code evaluation): a structurally decodable demand whose model field
contains an embedded NUL byte is flagged by the oracle validation as
malformed and is rejected before any arbitration, but the catch of the callback
then returns the decision false for the event instead of skipping it
without a decision. -/
theorem malformed_demand_rejected_but_decides_false :
    decodeDemand (encodeDemand demandNul) = .ok demandNul ∧
    validDemandData demandNul = false ∧
    oracleCallbackTry providersEx okBackend evNul = .error .invalidDemandData ∧
    oracleCallback providersEx okBackend evNul = false := by
  refine ⟨by decide, by decide, by decide, by decide⟩

/-- C6: an exception raised while decoding, validating or arbitrating one
event never terminates the polling loop: every polled event yields a
decision, and a failing event leaves the decision of every other event
unchanged, so a well-formed event after the failing one is still arbitrated
and decided. -/
theorem loop_isolation (ps : List LLMProvider) (bk : Backend) :
    (∀ events : List OracleEvent, (runLoop ps bk events).length = events.length) ∧
    (∀ (evs1 evs2 : List OracleEvent) (bad good : OracleEvent)
      (e : OracleErr) (v : Bool),
      oracleCallbackTry ps bk bad = .error e →
      oracleCallbackTry ps bk good = .ok v →
      runLoop ps bk (evs1 ++ bad :: (evs2 ++ [good])) =
        runLoop ps bk evs1 ++ false :: (runLoop ps bk evs2 ++ [v])) := by
  constructor
  · intro events
    simp [runLoop]
  · intro evs1 evs2 bad good e v hbad hgood
    simp [runLoop, oracleCallback, hbad, hgood]

set_option maxRecDepth 8000 in
/-- Witness for C6: a malformed event followed by a well-formed one still
lets the well-formed event be arbitrated and decided. -/
theorem loop_isolation_witness :
    runLoop providersEx okBackend [evNul, evGood] = [false, true] := by
  have h := (loop_isolation providersEx okBackend).2 [] [] evNul evGood
    .invalidDemandData true (by decide) (by decide)
  simpa [runLoop] using h

/-- C8: in the commit-reveal flow, revealing before the commit transaction
is confirmed fails with a commit-reveal violation, reclaiming the bond a
second time on the same fulfillment fails rather than silently succeeding,
and the fulfill-escrow flow (commit, wait for confirmation, reveal,
reclaim) runs to completion. -/
theorem commitReveal_ordering :
    doObligationOp (.committed false) = .error .commitRevealViolation ∧
    doObligationOp .unstarted = .error .commitRevealViolation ∧
    (∀ s s' : CRState, reclaimBondOp s = .ok s' →
      reclaimBondOp s' = .error .commitRevealViolation) ∧
    fulfillFlow = .ok .bondReclaimed := by
  refine ⟨rfl, rfl, ?_, rfl⟩
  intro s s' h
  cases s with
  | unstarted => exact Except.noConfusion h
  | committed c => exact Except.noConfusion h
  | revealed =>
    have hs := Except.ok.inj h
    subst hs
    rfl
  | bondReclaimed => exact Except.noConfusion h

/-- Witness for C8: reclaiming after a successful reclaim fails. -/
theorem commitReveal_ordering_witness :
    reclaimBondOp CRState.bondReclaimed = .error .commitRevealViolation :=
  commitReveal_ordering.2.2.1 .revealed .bondReclaimed rfl

end NLA
